import Mathlib

/-!
Verification of the layer4 listener wrapper (src/layer4/listener.go).

The file shallowly embeds the Go source:

* Go `error` interface values are modelled by `GoErr`, a pair of an
  allocation identifier and a message.  Two distinct `errors.New` calls
  yield distinct allocation identifiers even when the messages coincide,
  so Go's `==` on error interface values (pointer identity) is structural
  equality of `GoErr`.
* `pipeConnection`, `tlsConnection.ConnectionState`, the `handle`
  goroutine body and `setKeepAliveWorkarround` are embedded as pure
  functions; a Go panic is modelled by an `Option` result of `none`.
* The accept loop, the drain watcher goroutine, the per-connection
  handler goroutines and the consumer of the wrapped listener are
  embedded as a labelled small-step transition system `Step` over a
  global state `Sys`; goroutine interleaving is the nondeterminism of
  the relation.  Sending on a closed channel (a Go runtime panic) is
  modelled by the `sendPanic` flag.
-/

/-- A Go `error` interface value: an allocation identifier plus a message.
Equality of `GoErr` models Go's `==` on error values (identity of the
allocation), not message comparison. -/
structure GoErr where
  allocId : Nat
  msg : String
deriving DecidableEq, Repr

/-- The sentinel `errHijacked = errors.New("hijacked connection")` from
listener.go line 123.  Allocation identifier 0 is reserved for it. -/
def errHijacked : GoErr := ⟨0, "hijacked connection"⟩

/-- A `tls.ConnectionState` snapshot (listener.go uses it only as an
abstract value to store and return, so a few representative fields
suffice). -/
structure TLSState where
  version : Nat
  cipherSuite : Nat
  alpn : String
deriving DecidableEq, Repr

/-- A dynamically typed value held in the connection's variable store.
`tlsStates` is a value of Go type `[]*tls.ConnectionState`; `otherVal`
is a non-nil value of any other dynamic type (the tag stands for that
type).  An absent / nil value is `Option.none` at the store level. -/
inductive VarVal where
  | tlsStates (states : List TLSState)
  | otherVal (tag : String)
deriving DecidableEq, Repr

/-- Modelled from the spec: the `Connection` context of conn.go is not part
of src/ (only listener.go is); the spec describes it as carrying "a
cancellable context carrying arbitrary named variables (a generic
side-channel map)".  Only the variable store is needed here. -/
structure Connection where
  connId : Nat
  vars : List (String × VarVal)
deriving DecidableEq, Repr

/-- Modelled from the spec: `Connection.GetVar` (conn.go) is a lookup in the
generic side-channel map; `none` models a Go nil interface result. -/
def Connection.GetVar (c : Connection) (key : String) : Option VarVal :=
  (c.vars.find? (fun p => p.1 == key)).map (fun p => p.2)

/-- The `tlsConnection` wrapper type of listener.go lines 183-186: a
connection decorated with a pointer to a TLS connection state. -/
structure tlsConnection where
  conn : Connection
  connState : TLSState
deriving DecidableEq, Repr

/-- Method `(*tlsConnection).ConnectionState` (listener.go lines 188-190):
dereferences the stored state pointer. -/
def tlsConnection.ConnectionState (tc : tlsConnection) : TLSState :=
  tc.connState

/-- The value a pipe operation sends on the hand-off channel: the
connection itself, or the connection wrapped in a `tlsConnection`. -/
inductive SentConn where
  | plain (c : Connection)
  | wrapped (tc : tlsConnection)
deriving DecidableEq, Repr

/-- Embedding of `(*listener).pipeConnection` (listener.go lines 164-180).
The Go body reads the variable `"tls_connection_states"`; a non-nil value
is subjected to the unchecked type assertion `val.([]*tls.ConnectionState)`,
which panics on any other dynamic type (modelled by `none`).  With one or
more states present the connection is sent wrapped in a `tlsConnection`
holding `connectionStates[len(connectionStates)-1]`; otherwise it is sent
as is.  The function returns the sent value and `errHijacked`. -/
def pipeConnection (conn : Connection) : Option (SentConn × GoErr) :=
  match conn.GetVar "tls_connection_states" with
  | none => some (.plain conn, errHijacked)
  | some (.tlsStates connectionStates) =>
    match connectionStates.getLast? with
    | some st => some (.wrapped ⟨conn, st⟩, errHijacked)
    | none => some (.plain conn, errHijacked)
  | some (.otherVal _) => none

/-- C2: with one or more TLS connection-state snapshots stored under
`"tls_connection_states"`, the pipe operation sends the connection wrapped
in a carrier exposing the last snapshot and returns the hijacked marker;
with no snapshots (variable absent, or an empty sequence) it sends the
connection unwrapped and returns the hijacked marker. -/
theorem pipeConnection_sends_wrapped_last_state (conn : Connection) :
    (∀ states st, conn.GetVar "tls_connection_states" = some (.tlsStates states) →
      states.getLast? = some st →
      pipeConnection conn = some (.wrapped ⟨conn, st⟩, errHijacked) ∧
        tlsConnection.ConnectionState ⟨conn, st⟩ = st) ∧
    (conn.GetVar "tls_connection_states" = none →
      pipeConnection conn = some (.plain conn, errHijacked)) ∧
    (conn.GetVar "tls_connection_states" = some (.tlsStates []) →
      pipeConnection conn = some (.plain conn, errHijacked)) := by
  refine ⟨fun states st hv hl => ?_, fun hv => ?_, fun hv => ?_⟩
  · simp [pipeConnection, hv, hl, tlsConnection.ConnectionState]
  · simp [pipeConnection, hv]
  · simp [pipeConnection, hv]

/-- Witness for C2: a connection carrying two snapshots is piped wrapped in
a carrier exposing the second (most recent) snapshot, and a connection with
no stored snapshots is piped unwrapped; both runs return the hijacked
marker. -/
theorem pipeConnection_sends_wrapped_last_state_witness :
    pipeConnection ⟨1, [("tls_connection_states",
        .tlsStates [⟨771, 49195, "h2"⟩, ⟨772, 4865, "http/1.1"⟩])]⟩ =
      some (.wrapped ⟨⟨1, [("tls_connection_states",
        .tlsStates [⟨771, 49195, "h2"⟩, ⟨772, 4865, "http/1.1"⟩])]⟩,
        ⟨772, 4865, "http/1.1"⟩⟩, errHijacked) ∧
    tlsConnection.ConnectionState ⟨⟨1, [("tls_connection_states",
        .tlsStates [⟨771, 49195, "h2"⟩, ⟨772, 4865, "http/1.1"⟩])]⟩,
        ⟨772, 4865, "http/1.1"⟩⟩ = ⟨772, 4865, "http/1.1"⟩ ∧
    pipeConnection ⟨2, []⟩ = some (.plain ⟨2, []⟩, errHijacked) := by
  refine ⟨?_, ?_, ?_⟩
  · exact ((pipeConnection_sends_wrapped_last_state _).1
      [⟨771, 49195, "h2"⟩, ⟨772, 4865, "http/1.1"⟩] ⟨772, 4865, "http/1.1"⟩
      (by decide) (by decide)).1
  · exact ((pipeConnection_sends_wrapped_last_state _).1
      [⟨771, 49195, "h2"⟩, ⟨772, 4865, "http/1.1"⟩] ⟨772, 4865, "http/1.1"⟩
      (by decide) (by decide)).2
  · exact (pipeConnection_sends_wrapped_last_state _).2.1 (by decide)

/-- C9: a non-nil value of any dynamic type other than
`[]*tls.ConnectionState` stored under `"tls_connection_states"` makes the
pipe operation panic (the unchecked type assertion), rather than return a
result. -/
theorem pipeConnection_panics_on_wrong_type (conn : Connection) (tag : String)
    (h : conn.GetVar "tls_connection_states" = some (.otherVal tag)) :
    pipeConnection conn = none := by
  simp [pipeConnection, h]

/-- Witness for C9: a connection whose variable holds a value of a
different dynamic type drives the pipe operation into the panic result. -/
theorem pipeConnection_panics_on_wrong_type_witness :
    pipeConnection ⟨3, [("tls_connection_states", .otherVal "string")]⟩ = none :=
  pipeConnection_panics_on_wrong_type _ "string" (by decide)

/-- Outcome of the single `compiledRoute.Handle(cx)` call inside a handler
goroutine.  The handler chain is an external collaborator ("a single
composed operation Handle(connectionContext) -> error"); per the spec's
hijack protocol it either returns an error without touching the hand-off
channel (`normal`, with `none` for a Go nil error), or it calls the pipe
operation and propagates its result (`pipe`). -/
inductive HandlerOutcome where
  | normal (err : Option GoErr)
  | pipe
deriving DecidableEq, Repr

/-- The error value the handler chain call leaves in `err` inside
`(*listener).handle`: `pipeConnection` always returns `errHijacked`. -/
def chainResult : HandlerOutcome → Option GoErr
  | .normal e => e
  | .pipe => some errHijacked

/-- Atomic observable actions of one `(*listener).handle` execution. -/
inductive HandleEvent where
  | bufGet
  | bufReset
  | pipeSend
  | logError
  | logStats
  | bufPut
  | wgDone
  | closeConn
deriving DecidableEq, Repr

/-- Embedding of the body of `(*listener).handle` (listener.go lines
125-154) as the ordered trace of its observable actions.  The buffer is
taken from `bufPool` and reset (lines 134-135); the handler chain runs
(line 142, emitting the channel send if it pipes); a non-nil error other
than `errHijacked` is logged (lines 144-146); the stats record is logged
(line 148); then the deferred calls run in reverse registration order:
`bufPool.Put` (line 136), then `wg.Done` and the conditional
`conn.Close()` guarded by `err != errHijacked` (lines 127-132). -/
def handle (o : HandlerOutcome) : List HandleEvent :=
  [.bufGet, .bufReset]
    ++ (match o with
        | .pipe => [.pipeSend]
        | .normal _ => [])
    ++ (match chainResult o with
        | some e => if e = errHijacked then [] else [.logError]
        | none => [])
    ++ [.logStats, .bufPut, .wgDone]
    ++ (match chainResult o with
        | some e => if e = errHijacked then [] else [.closeConn]
        | none => [.closeConn])

/-- C1: a handler goroutine closes its connection exactly when the error
returned by the handler chain is not identically `errHijacked`; in
particular an error merely sharing the sentinel's message is still closed
(identity comparison, not message comparison); and a non-nil, non-sentinel
error is logged without that changing the closing decision (the close
occurs whether or not the error was logged). -/
theorem handle_closes_iff_not_hijacked (o : HandlerOutcome) :
    (HandleEvent.closeConn ∈ handle o ↔ chainResult o ≠ some errHijacked) ∧
    (HandleEvent.logError ∈ handle o ↔
      ∃ e, chainResult o = some e ∧ e ≠ errHijacked) ∧
    (∀ e, chainResult o = some e → e.msg = errHijacked.msg → e ≠ errHijacked →
      HandleEvent.closeConn ∈ handle o ∧ HandleEvent.logError ∈ handle o) := by
  refine ⟨?_, ?_, ?_⟩
  · match o with
    | .pipe => simp [handle, chainResult]
    | .normal none => simp [handle, chainResult]
    | .normal (some e) =>
      by_cases he : e = errHijacked <;> simp [handle, chainResult, he]
  · match o with
    | .pipe => simp [handle, chainResult]
    | .normal none => simp [handle, chainResult]
    | .normal (some e) =>
      by_cases he : e = errHijacked <;> simp [handle, chainResult, he]
  · intro e hres _ hne
    match o with
    | .pipe => simp [chainResult] at hres; simp [hres] at hne
    | .normal none => simp [chainResult] at hres
    | .normal (some e2) =>
      simp [chainResult] at hres
      subst hres
      simp [handle, chainResult, hne]

/-- Witness for C1: an error distinct from the sentinel but carrying the
very same message `"hijacked connection"` (allocation 7 instead of 0)
still causes the connection to be closed, and is logged. -/
theorem handle_closes_iff_not_hijacked_witness :
    HandleEvent.closeConn ∈ handle (.normal (some ⟨7, "hijacked connection"⟩)) ∧
    HandleEvent.logError ∈ handle (.normal (some ⟨7, "hijacked connection"⟩)) :=
  (handle_closes_iff_not_hijacked (.normal (some ⟨7, "hijacked connection"⟩))).2.2
    ⟨7, "hijacked connection"⟩ (by decide) (by decide) (by decide)

/-- Change to the buffer pool's outstanding-checkout count caused by one
handle event: `bufPool.Get` checks a buffer out, `bufPool.Put` returns
it. -/
def checkoutDelta : HandleEvent → Int
  | .bufGet => 1
  | .bufPut => -1
  | _ => 0

/-- Net change of the buffer pool's outstanding-checkout count over a
handle trace. -/
def netCheckout (t : List HandleEvent) : Int :=
  (t.map checkoutDelta).sum

/-- C7: every `(*listener).handle` execution checks exactly one buffer out
of the pool, resets it before anything else happens, and returns it on
exit on every path — the net pool checkout over the trace is zero for
every handler outcome, the hijacked one included. -/
theorem handle_buffer_pool_balanced (o : HandlerOutcome) :
    (handle o).count .bufGet = 1 ∧
    (handle o).count .bufPut = 1 ∧
    (handle o).take 2 = [.bufGet, .bufReset] ∧
    HandleEvent.bufPut ∈ handle o ∧
    netCheckout (handle o) = 0 := by
  match o with
  | .pipe => decide
  | .normal none => decide
  | .normal (some e) =>
    by_cases he : e = errHijacked <;>
      simp [handle, chainResult, he, netCheckout, checkoutDelta]

/-- The keepalive parameters of a `syscall.TCPKeepalive` structure passed
to `WSAIoctl` (times in milliseconds). -/
structure KeepaliveParams where
  onOff : Nat
  time : Nat
  interval : Nat
deriving DecidableEq, Repr

/-- The dynamic type of an accepted connection as far as listener.go
inspects it.  A `tcp` connection is a real `*net.TCPConn`; its three
`Option GoErr` fields script the outcomes of `SyscallConn()`, of
`rawConn.Control(...)` and of the `WSAIoctl` call inside the control
callback.  `kaCapableNonTCP` implements the `tcpConnection` interface
(SetKeepAlive / SetKeepAlivePeriod) without being a `*net.TCPConn`;
`plainConn` implements neither method. -/
inductive ConnKind where
  | tcp (syscallConnErr : Option GoErr) (controlErr : Option GoErr)
      (ioctlErr : Option GoErr)
  | kaCapableNonTCP
  | plainConn
deriving DecidableEq, Repr

/-- Whether the connection's dynamic type satisfies the `tcpConnection`
interface of listener.go lines 83-86 (the `conn.(tcpConnection)` comma-ok
assertion in the accept loop, line 100). -/
def implsTcpConnection : ConnKind → Bool
  | .tcp _ _ _ => true
  | .kaCapableNonTCP => true
  | .plainConn => false

/-- Side effects of one `setKeepAliveWorkarround` run: the parameters
handed to `WSAIoctl` (if the callback ran), whether the callback printed
an `WSAIoctl` error with `fmt.Println`, and whether the interface methods
`SetKeepAlive` / `SetKeepAlivePeriod` were invoked. -/
structure KAEffects where
  ioctlParams : Option KeepaliveParams
  printedIoctlError : Bool
  setKeepAliveCalled : Bool
  setKeepAlivePeriodCalled : Bool
deriving DecidableEq, Repr

/-- Embedding of `setKeepAliveWorkarround` (listener.go lines 192-221).
The body starts with the unchecked type assertion `conn.(*net.TCPConn)`,
which panics (`none`) unless the connection is concretely a
`*net.TCPConn`.  On a `*net.TCPConn` it returns the `SyscallConn()` error
if any; otherwise `rawConn.Control` runs the callback, which calls
`WSAIoctl` with `TCPKeepalive{OnOff: 1, Time: 120000, Interval: 15000}`
and merely prints an `WSAIoctl` failure; the returned error is the one
from `Control`.  The declared interface methods are never invoked. -/
def setKeepAliveWorkarround : ConnKind → Option (Option GoErr × KAEffects)
  | .kaCapableNonTCP => none
  | .plainConn => none
  | .tcp syscallConnErr controlErr ioctlErr =>
    match syscallConnErr with
    | some e => some (some e, ⟨none, false, false, false⟩)
    | none =>
      match controlErr with
      | some e => some (some e, ⟨none, false, false, false⟩)
      | none =>
        some (none, ⟨some ⟨1, 120000, 15000⟩, ioctlErr.isSome, false, false⟩)

/-- A connection as scripted for the transition system: its identity, its
dynamic type, and what the handler chain will do with it. -/
structure ConnInfo where
  cid : Nat
  kind : ConnKind
  outcome : HandlerOutcome
deriving DecidableEq, Repr

/-- One result of `l.Listener.Accept()` in the accept loop: either an
error (with its `net.Error` classification: whether the dynamic type is a
`net.Error`, and what `Temporary()` reports), or a connection. -/
inductive AcceptOutcome where
  | aerr (e : GoErr) (isNetError : Bool) (temporary : Bool)
  | aok (c : ConnInfo)
deriving DecidableEq, Repr

/-- Program counter of a handler goroutine: before the handler chain call,
after it (deferred `bufPool.Put` next), after `wg.Done()`, in that
order. -/
inductive HPC where
  | start
  | ranChain
  | didDone
deriving DecidableEq, Repr

/-- A live handler goroutine. -/
structure HThread where
  conn : ConnInfo
  pc : HPC
deriving DecidableEq, Repr

/-- Program counter of the accept-loop goroutine: accepting (the `for`
loop of lines 90-110), about to spawn the drain watcher (line 113),
draining the channel (lines 117-119), finished, or killed by a panic. -/
inductive LoopPC where
  | accepting
  | spawnWatcher
  | draining
  | doneLoop
  | crashedLoop
deriving DecidableEq, Repr

/-- Program counter of the drain watcher goroutine of lines 113-116. -/
inductive WatcherPC where
  | notStarted
  | waiting
  | waited
  | watcherDone
deriving DecidableEq, Repr

/-- Log records emitted by the accept loop. -/
inductive LoopEvent where
  | tempLogged (e : GoErr)
  | fatalRecorded (e : GoErr)
  | kaWarnLogged (e : GoErr)
  | kaPrinted
deriving DecidableEq, Repr

/-- Which goroutine performs a step. -/
inductive Act where
  | loopT
  | watcherT
  | handlerT
  | consumerT
deriving DecidableEq, Repr

/-- Global state of the transition system.  Ghost fields record history:
`accepted` the identifiers of connections dispatched to a handler
goroutine, `handlerClosed` connections closed by their handler goroutine,
`drainClosed` connections closed by the post-loop drain, `delivered`
connections returned by the wrapper's `Accept` to its consumer,
`acceptReturns` every (connection, error) pair `Accept` returned, and
`loopEvents` the accept loop's log records.  `sendPanic` records a send
on the closed channel (a Go runtime panic). -/
structure Sys where
  script : List AcceptOutcome
  loopPC : LoopPC
  termErr : Option GoErr
  wg : Nat
  handlers : List HThread
  chanBuf : List Nat
  chanClosed : Bool
  watcher : WatcherPC
  accepted : List Nat
  handlerClosed : List Nat
  drainClosed : List Nat
  delivered : List Nat
  acceptReturns : List (Option Nat × Option GoErr)
  loopEvents : List LoopEvent
  sendPanic : Bool
deriving DecidableEq, Repr

/-- Log records the accept loop produces while applying the keepalive
configurator to a freshly accepted connection (listener.go lines
100-105): the returned error, if any, is logged at warning level; an
`WSAIoctl` failure inside the callback is only printed. -/
def kaEvents (k : ConnKind) : List LoopEvent :=
  if implsTcpConnection k then
    match setKeepAliveWorkarround k with
    | none => []
    | some (err, eff) =>
      (match err with
       | some e => [.kaWarnLogged e]
       | none => []) ++ (if eff.printedIoctlError then [.kaPrinted] else [])
  else []

/-- Initial state: the accept loop is running, nothing has happened. -/
def initSys (script : List AcceptOutcome) : Sys where
  script := script
  loopPC := .accepting
  termErr := none
  wg := 0
  handlers := []
  chanBuf := []
  chanClosed := false
  watcher := .notStarted
  accepted := []
  handlerClosed := []
  drainClosed := []
  delivered := []
  acceptReturns := []
  loopEvents := []
  sendPanic := false

/-- Labelled small-step semantics of the listener: interleaving of the
accept-loop goroutine, the drain watcher goroutine, the handler
goroutines and the consumer of the wrapped listener.

Loop steps (listener.go lines 89-120): a temporary `net.Error` is logged
and retried; any other error is recorded in `l.err` and ends the accept
phase; an accepted connection gets the keepalive treatment (panicking on
the `conn.(*net.TCPConn)` assertion unless it is a real `*net.TCPConn`),
then `wg.Add(1)` and the spawn of its handler goroutine; after the loop
the drain watcher is spawned and the loop drains and closes every
connection still in the channel until the channel is closed and empty.

Watcher steps (lines 113-116): `wg.Wait()` returns once `wg = 0`, then
`close(l.connChan)`.

Handler steps (lines 125-154): the chain call (which for a piping
outcome performs the channel send — on an already closed channel that
send is a runtime panic, recorded in `sendPanic`), then `wg.Done()`,
then the conditional `conn.Close()` guarded by `err != errHijacked`.

Consumer steps (lines 156-162): `Accept` returns a received connection
with a nil error, or, once the channel is closed and drained, `nil` and
`l.err`. -/
inductive Step : Sys → Act → Sys → Prop where
  | acceptTemp {s : Sys} {e : GoErr} {rest : List AcceptOutcome} :
      s.loopPC = .accepting →
      s.script = .aerr e true true :: rest →
      Step s .loopT
        { s with script := rest, loopEvents := .tempLogged e :: s.loopEvents }
  | acceptFatal {s : Sys} {e : GoErr} {isNet temp : Bool} {rest : List AcceptOutcome} :
      s.loopPC = .accepting →
      s.script = .aerr e isNet temp :: rest →
      (isNet && temp) = false →
      Step s .loopT
        { s with script := rest, termErr := some e, loopPC := .spawnWatcher,
                 loopEvents := .fatalRecorded e :: s.loopEvents }
  | acceptOkSpawn {s : Sys} {c : ConnInfo} {rest : List AcceptOutcome} :
      s.loopPC = .accepting →
      s.script = .aok c :: rest →
      c.kind ≠ .kaCapableNonTCP →
      Step s .loopT
        { s with script := rest, wg := s.wg + 1,
                 handlers := s.handlers ++ [⟨c, .start⟩],
                 accepted := s.accepted ++ [c.cid],
                 loopEvents := kaEvents c.kind ++ s.loopEvents }
  | acceptOkCrash {s : Sys} {c : ConnInfo} {rest : List AcceptOutcome} :
      s.loopPC = .accepting →
      s.script = .aok c :: rest →
      c.kind = .kaCapableNonTCP →
      Step s .loopT
        { s with script := rest, loopPC := .crashedLoop }
  | spawnWatcherStep {s : Sys} :
      s.loopPC = .spawnWatcher →
      Step s .loopT
        { s with loopPC := .draining, watcher := .waiting }
  | drainRecv {s : Sys} {cid : Nat} {rest : List Nat} :
      s.loopPC = .draining →
      s.chanBuf = cid :: rest →
      Step s .loopT
        { s with chanBuf := rest, drainClosed := s.drainClosed ++ [cid] }
  | drainDone {s : Sys} :
      s.loopPC = .draining →
      s.chanBuf = [] →
      s.chanClosed = true →
      Step s .loopT
        { s with loopPC := .doneLoop }
  | watcherWait {s : Sys} :
      s.watcher = .waiting →
      s.wg = 0 →
      Step s .watcherT
        { s with watcher := .waited }
  | watcherClose {s : Sys} :
      s.watcher = .waited →
      Step s .watcherT
        { s with chanClosed := true, watcher := .watcherDone }
  | chainNormal {s : Sys} {pre post : List HThread} {c : ConnInfo} {e : Option GoErr} :
      s.handlers = pre ++ ⟨c, .start⟩ :: post →
      c.outcome = .normal e →
      Step s .handlerT
        { s with handlers := pre ++ ⟨c, .ranChain⟩ :: post }
  | pipeSendOk {s : Sys} {pre post : List HThread} {c : ConnInfo} :
      s.handlers = pre ++ ⟨c, .start⟩ :: post →
      c.outcome = .pipe →
      s.chanClosed = false →
      Step s .handlerT
        { s with handlers := pre ++ ⟨c, .ranChain⟩ :: post,
                 chanBuf := s.chanBuf ++ [c.cid] }
  | pipeSendClosed {s : Sys} {pre post : List HThread} {c : ConnInfo} :
      s.handlers = pre ++ ⟨c, .start⟩ :: post →
      c.outcome = .pipe →
      s.chanClosed = true →
      Step s .handlerT
        { s with sendPanic := true }
  | hDone {s : Sys} {pre post : List HThread} {c : ConnInfo} :
      s.handlers = pre ++ ⟨c, .ranChain⟩ :: post →
      Step s .handlerT
        { s with handlers := pre ++ ⟨c, .didDone⟩ :: post, wg := s.wg - 1 }
  | hCloseYes {s : Sys} {pre post : List HThread} {c : ConnInfo} :
      s.handlers = pre ++ ⟨c, .didDone⟩ :: post →
      chainResult c.outcome ≠ some errHijacked →
      Step s .handlerT
        { s with handlers := pre ++ post,
                 handlerClosed := s.handlerClosed ++ [c.cid] }
  | hCloseNo {s : Sys} {pre post : List HThread} {c : ConnInfo} :
      s.handlers = pre ++ ⟨c, .didDone⟩ :: post →
      chainResult c.outcome = some errHijacked →
      Step s .handlerT
        { s with handlers := pre ++ post }
  | consRecv {s : Sys} {cid : Nat} {rest : List Nat} :
      s.chanBuf = cid :: rest →
      Step s .consumerT
        { s with chanBuf := rest, delivered := s.delivered ++ [cid],
                 acceptReturns := s.acceptReturns ++ [(some cid, none)] }
  | consClosed {s : Sys} :
      s.chanBuf = [] →
      s.chanClosed = true →
      Step s .consumerT
        { s with acceptReturns := s.acceptReturns ++ [(none, s.termErr)] }

/-- A step by any goroutine. -/
def StepAny (s s2 : Sys) : Prop := ∃ a, Step s a s2

/-- Reachability in the interleaving semantics. -/
def Reaches (s s2 : Sys) : Prop := Relation.ReflTransGen StepAny s s2

/-- A handler goroutine that has not yet executed its `wg.Done()`. -/
def preDone (t : HThread) : Bool :=
  t.pc == .start || t.pc == .ranChain

/-- Number of live handler goroutines that have not yet executed
`wg.Done()`. -/
def preDoneCount (hs : List HThread) : Nat :=
  (hs.filter preDone).length

theorem preDoneCount_nil : preDoneCount [] = 0 := rfl

theorem preDoneCount_append (a b : List HThread) :
    preDoneCount (a ++ b) = preDoneCount a + preDoneCount b := by
  simp [preDoneCount, List.filter_append]

theorem preDoneCount_cons (t : HThread) (hs : List HThread) :
    preDoneCount (t :: hs) = (if preDone t then 1 else 0) + preDoneCount hs := by
  by_cases h : preDone t <;> simp [preDoneCount, List.filter_cons, h]
  all_goals omega

/-- The inductive invariant behind C3: the wait-group counter equals the
number of handler goroutines that have not yet called `wg.Done()`
(increment-before-spawn), the watcher passes `wg.Wait()` only at zero,
the watcher only runs after the accept phase has ended, the channel is
closed only by the watcher's final step, and no send on the closed
channel ever happens. -/
def SysInv (s : Sys) : Prop :=
  s.wg = preDoneCount s.handlers ∧
  ((s.watcher = .waited ∨ s.watcher = .watcherDone) → s.wg = 0) ∧
  (s.watcher ≠ .notStarted → s.loopPC = .draining ∨ s.loopPC = .doneLoop) ∧
  (s.chanClosed = true → s.watcher = .watcherDone) ∧
  s.sendPanic = false

theorem inv_init (script : List AcceptOutcome) : SysInv (initSys script) := by
  refine ⟨rfl, ?_, ?_, ?_, rfl⟩ <;> simp [initSys]

theorem inv_step {s : Sys} {a : Act} {s2 : Sys}
    (h : Step s a s2) (hi : SysInv s) : SysInv s2 := by
  obtain ⟨h1, h2, h3, h4, h5⟩ := hi
  cases h with
  | acceptTemp hpc hscript => exact ⟨h1, h2, h3, h4, h5⟩
  | acceptFatal hpc hscript hclass =>
    refine ⟨h1, h2, ?_, h4, h5⟩
    intro hw
    rcases h3 hw with h | h <;> simp [hpc] at h
  | acceptOkSpawn hpc hscript hkind =>
    refine ⟨?_, ?_, ?_, h4, h5⟩
    · simp [preDoneCount_append, preDoneCount_cons, preDoneCount_nil, preDone, h1]
    · intro hw
      have hne : s.watcher ≠ .notStarted := by
        rcases hw with h | h <;> simp at h <;> simp [h]
      rcases h3 hne with h | h <;> simp [hpc] at h
    · intro hw
      rcases h3 hw with h | h <;> simp [hpc] at h
  | acceptOkCrash hpc hscript hkind =>
    refine ⟨h1, h2, ?_, h4, h5⟩
    intro hw
    rcases h3 hw with h | h <;> simp [hpc] at h
  | spawnWatcherStep hpc =>
    refine ⟨h1, ?_, ?_, ?_, h5⟩
    · intro hw
      rcases hw with h | h <;> simp at h
    · intro _
      left
      rfl
    · intro hc
      have hwd := h4 hc
      have := h3 (by simp [hwd])
      rcases this with h | h <;> simp [hpc] at h
  | drainRecv hpc hbuf => exact ⟨h1, h2, h3, h4, h5⟩
  | drainDone hpc hbuf hcl =>
    refine ⟨h1, h2, ?_, h4, h5⟩
    intro _
    right
    rfl
  | watcherWait hw hwg =>
    refine ⟨h1, ?_, ?_, ?_, h5⟩
    · intro _
      exact hwg
    · intro _
      exact h3 (by simp [hw])
    · intro hc
      have := h4 hc
      simp [hw] at this
  | watcherClose hw =>
    refine ⟨h1, ?_, ?_, ?_, h5⟩
    · intro _
      exact h2 (Or.inl hw)
    · intro _
      exact h3 (by simp [hw])
    · intro _
      rfl
  | chainNormal hhs hout =>
    refine ⟨?_, h2, h3, h4, h5⟩
    rw [hhs] at h1
    simp [preDoneCount_append, preDoneCount_cons, preDone] at h1 ⊢
    omega
  | pipeSendOk hhs hout hcl =>
    refine ⟨?_, h2, h3, h4, h5⟩
    rw [hhs] at h1
    simp [preDoneCount_append, preDoneCount_cons, preDone] at h1 ⊢
    omega
  | pipeSendClosed hhs hout hcl =>
    exfalso
    have hwd := h4 hcl
    have hwg := h2 (Or.inr hwd)
    rw [hhs] at h1
    simp [preDoneCount_append, preDoneCount_cons, preDone] at h1
    omega
  | hDone hhs =>
    refine ⟨?_, ?_, h3, h4, h5⟩
    · rw [hhs] at h1
      simp [preDoneCount_append, preDoneCount_cons, preDone] at h1 ⊢
      omega
    · intro hw
      have h0 := h2 hw
      show s.wg - 1 = 0
      omega
  | hCloseYes hhs hcr =>
    refine ⟨?_, h2, h3, h4, h5⟩
    rw [hhs] at h1
    simp [preDoneCount_append, preDoneCount_cons, preDone] at h1 ⊢
    omega
  | hCloseNo hhs hcr =>
    refine ⟨?_, h2, h3, h4, h5⟩
    rw [hhs] at h1
    simp [preDoneCount_append, preDoneCount_cons, preDone] at h1 ⊢
    omega
  | consRecv hbuf => exact ⟨h1, h2, h3, h4, h5⟩
  | consClosed hbuf hcl => exact ⟨h1, h2, h3, h4, h5⟩

theorem inv_reaches {script : List AcceptOutcome} {s : Sys}
    (h : Reaches (initSys script) s) : SysInv s := by
  induction h with
  | refl => exact inv_init script
  | tail hab hbc ih =>
    obtain ⟨a, hstep⟩ := hbc
    exact inv_step hstep ih

/-- Once the accept loop has left its accepting phase it never returns to
it. -/
theorem loop_stops_permanently {s : Sys} {a : Act} {s2 : Sys}
    (h : Step s a s2) (hne : s.loopPC ≠ .accepting) : s2.loopPC ≠ .accepting := by
  cases h <;> simp_all

theorem pc_didDone_of_preDoneCount_zero {hs : List HThread}
    (h : preDoneCount hs = 0) : ∀ t ∈ hs, t.pc = .didDone := by
  intro t ht
  by_contra hne
  have hp : preDone t = true := by
    cases hpc : t.pc <;> simp [preDone, hpc] at hne ⊢
  have hm : t ∈ hs.filter preDone := List.mem_filter.mpr ⟨ht, hp⟩
  have hlen := List.length_pos.mpr (List.ne_nil_of_mem hm)
  unfold preDoneCount at h
  omega

/-- C3: in every reachable state of the interleaving semantics, the
hand-off channel is closed only after the accept loop has permanently
left its accepting phase and the wait group has reached zero with every
handler goroutine past its `wg.Done()`; the wait group always equals the
number of handler goroutines not yet done (it is incremented before the
spawn); no send on the closed channel (a runtime panic) ever occurs; and
an accept loop that has stopped accepting never resumes. -/
theorem channel_closed_only_after_drain_quiescence
    (script : List AcceptOutcome) (s : Sys) (h : Reaches (initSys script) s) :
    (s.chanClosed = true → s.loopPC ≠ .accepting ∧ s.wg = 0 ∧
      ∀ t ∈ s.handlers, t.pc = .didDone) ∧
    s.sendPanic = false ∧
    s.wg = preDoneCount s.handlers ∧
    (∀ a s2, Step s a s2 → s.loopPC ≠ .accepting → s2.loopPC ≠ .accepting) := by
  obtain ⟨h1, h2, h3, h4, h5⟩ := inv_reaches h
  refine ⟨?_, h5, h1, ?_⟩
  · intro hc
    have hwd := h4 hc
    have hwg := h2 (Or.inr hwd)
    have hlp := h3 (by simp [hwd])
    refine ⟨?_, hwg, ?_⟩
    · rcases hlp with hl | hl <;> simp [hl]
    · exact pc_didDone_of_preDoneCount_zero (by omega)
  · intro a s2 hstep
    exact loop_stops_permanently hstep

def c3e : GoErr := ⟨1, "use of closed network connection"⟩

def c3script : List AcceptOutcome := [.aerr c3e false false]

def c3s1 : Sys :=
  { initSys c3script with
      script := []
      termErr := some c3e
      loopPC := .spawnWatcher
      loopEvents := [.fatalRecorded c3e] }

def c3s2 : Sys := { c3s1 with loopPC := .draining, watcher := .waiting }

def c3s3 : Sys := { c3s2 with watcher := .waited }

def c3s4 : Sys := { c3s3 with chanClosed := true, watcher := .watcherDone }

theorem c3_chain : Reaches (initSys c3script) c3s4 := by
  have e1 : StepAny (initSys c3script) c3s1 := ⟨.loopT, Step.acceptFatal rfl rfl (by rfl)⟩
  have e2 : StepAny c3s1 c3s2 := ⟨.loopT, Step.spawnWatcherStep rfl⟩
  have e3 : StepAny c3s2 c3s3 := ⟨.watcherT, Step.watcherWait rfl rfl⟩
  have e4 : StepAny c3s3 c3s4 := ⟨.watcherT, Step.watcherClose rfl⟩
  exact .tail (.tail (.tail (.tail .refl e1) e2) e3) e4

/-- Witness for C3: a concrete run — fatal accept error, watcher spawned,
wait group observed at zero, channel closed — reaches a state with the
channel closed, with the accept loop stopped, the wait group at zero and
no send-on-closed-channel panic. -/
theorem channel_closed_only_after_drain_quiescence_witness :
    ∃ s, Reaches (initSys c3script) s ∧
      s.chanClosed = true ∧ s.loopPC ≠ .accepting ∧ s.wg = 0 ∧
      s.sendPanic = false := by
  obtain ⟨ha, hb, -, -⟩ := channel_closed_only_after_drain_quiescence _ _ c3_chain
  obtain ⟨hx, hy, -⟩ := ha rfl
  exact ⟨_, c3_chain, rfl, hx, hy, hb⟩

/-- C6: in the accept phase, an accept error whose dynamic type is a
`net.Error` reporting `Temporary()` is logged and the loop retries
immediately — the only step the loop goroutine can take leaves it
accepting with the terminal error slot untouched; any other non-nil
accept error makes the loop record it as the terminal error and leave
the accept phase. -/
theorem accept_error_classification :
    (∀ s e rest, s.loopPC = .accepting →
      s.script = .aerr e true true :: rest →
      Step s .loopT
        { s with script := rest, loopEvents := .tempLogged e :: s.loopEvents }) ∧
    (∀ s s2 e rest, s.loopPC = .accepting →
      s.script = .aerr e true true :: rest →
      Step s .loopT s2 →
      s2 = { s with script := rest,
                    loopEvents := .tempLogged e :: s.loopEvents }) ∧
    (∀ s s2 e isNet temp rest, s.loopPC = .accepting →
      s.script = .aerr e isNet temp :: rest → (isNet && temp) = false →
      Step s .loopT s2 →
      s2 = { s with script := rest, termErr := some e,
                    loopPC := .spawnWatcher,
                    loopEvents := .fatalRecorded e :: s.loopEvents }) := by
  refine ⟨?_, ?_, ?_⟩
  · intro s e rest h1 h2
    exact Step.acceptTemp h1 h2
  · intro s s2 e rest h1 h2 hstep
    cases hstep <;> simp_all
  · intro s s2 e isNet temp rest h1 h2 hclass hstep
    cases hstep <;> simp_all

/-- Witness for C6: the loop logs and retries a concrete temporary
`net.Error`, and a concrete fatal error is recorded as terminal while the
loop leaves the accept phase. -/
theorem accept_error_classification_witness :
    (Step (initSys [.aerr ⟨2, "i/o timeout"⟩ true true]) .loopT
      { initSys [.aerr ⟨2, "i/o timeout"⟩ true true] with
          script := []
          loopEvents := [.tempLogged ⟨2, "i/o timeout"⟩] }) ∧
    (∃ s2, Step (initSys [.aerr ⟨3, "accept failed"⟩ true false]) .loopT s2 ∧
      s2 = { initSys [.aerr ⟨3, "accept failed"⟩ true false] with
          script := []
          termErr := some ⟨3, "accept failed"⟩
          loopPC := .spawnWatcher
          loopEvents := [.fatalRecorded ⟨3, "accept failed"⟩] }) := by
  constructor
  · exact accept_error_classification.1 _ ⟨2, "i/o timeout"⟩ [] rfl rfl
  · refine ⟨_, Step.acceptFatal rfl rfl (by rfl), ?_⟩
    exact accept_error_classification.2.2 _ _ ⟨3, "accept failed"⟩ true false []
      rfl rfl (by rfl) (Step.acceptFatal rfl rfl (by rfl))

/-- C4: across every step of the system, the wrapper's `Accept` results
evolve in exactly one of three ways — unchanged; extended by a
connection received from the hand-off channel paired with a nil error
(the connection also being recorded as delivered); or, with the channel
closed and drained, extended by a nil connection paired with the
terminal error slot (nil if nothing was recorded).  Moreover the
terminal error slot changes only when the accept loop records a fatal
(non-temporary) accept error. -/
theorem accept_returns_classification {s : Sys} {a : Act} {s2 : Sys}
    (h : Step s a s2) :
    (s2.acceptReturns = s.acceptReturns ∨
      (∃ cid rest, s.chanBuf = cid :: rest ∧
        s2.acceptReturns = s.acceptReturns ++ [(some cid, none)] ∧
        s2.delivered = s.delivered ++ [cid]) ∨
      (s.chanBuf = [] ∧ s.chanClosed = true ∧
        s2.acceptReturns = s.acceptReturns ++ [(none, s.termErr)])) ∧
    (s2.termErr ≠ s.termErr →
      ∃ e isNet temp rest, s.loopPC = .accepting ∧
        s.script = .aerr e isNet temp :: rest ∧ (isNet && temp) = false ∧
        s2.termErr = some e) := by
  cases h with
  | acceptTemp h1 h2 => exact ⟨Or.inl rfl, fun hne => absurd rfl hne⟩
  | acceptFatal h1 h2 h3 =>
    exact ⟨Or.inl rfl, fun _ => ⟨_, _, _, _, h1, h2, h3, rfl⟩⟩
  | acceptOkSpawn h1 h2 h3 => exact ⟨Or.inl rfl, fun hne => absurd rfl hne⟩
  | acceptOkCrash h1 h2 h3 => exact ⟨Or.inl rfl, fun hne => absurd rfl hne⟩
  | spawnWatcherStep h1 => exact ⟨Or.inl rfl, fun hne => absurd rfl hne⟩
  | drainRecv h1 h2 => exact ⟨Or.inl rfl, fun hne => absurd rfl hne⟩
  | drainDone h1 h2 h3 => exact ⟨Or.inl rfl, fun hne => absurd rfl hne⟩
  | watcherWait h1 h2 => exact ⟨Or.inl rfl, fun hne => absurd rfl hne⟩
  | watcherClose h1 => exact ⟨Or.inl rfl, fun hne => absurd rfl hne⟩
  | chainNormal h1 h2 => exact ⟨Or.inl rfl, fun hne => absurd rfl hne⟩
  | pipeSendOk h1 h2 h3 => exact ⟨Or.inl rfl, fun hne => absurd rfl hne⟩
  | pipeSendClosed h1 h2 h3 => exact ⟨Or.inl rfl, fun hne => absurd rfl hne⟩
  | hDone h1 => exact ⟨Or.inl rfl, fun hne => absurd rfl hne⟩
  | hCloseYes h1 h2 => exact ⟨Or.inl rfl, fun hne => absurd rfl hne⟩
  | hCloseNo h1 h2 => exact ⟨Or.inl rfl, fun hne => absurd rfl hne⟩
  | consRecv h1 =>
    exact ⟨Or.inr (Or.inl ⟨_, _, h1, rfl, rfl⟩), fun hne => absurd rfl hne⟩
  | consClosed h1 h2 =>
    exact ⟨Or.inr (Or.inr ⟨h1, h2, rfl⟩), fun hne => absurd rfl hne⟩

/-- Witness for C4: with connection 5 buffered in the channel, one
consumer step returns it with a nil error; with the channel closed and
drained after a recorded terminal error, a consumer step returns the nil
connection paired with that error. -/
theorem accept_returns_classification_witness :
    (∃ s2, Step { initSys [] with chanBuf := [5] } .consumerT s2 ∧
      s2.acceptReturns = [(some 5, none)] ∧ s2.delivered = [5]) ∧
    (∃ s2, Step { initSys [] with chanClosed := true, termErr := some ⟨4, "listener closed"⟩ } .consumerT s2 ∧
      s2.acceptReturns = [(none, some ⟨4, "listener closed"⟩)]) := by
  constructor
  · have hstep : Step { initSys [] with chanBuf := [5] } .consumerT
        { initSys [] with chanBuf := [], delivered := [5], acceptReturns := [(some 5, none)] } :=
      Step.consRecv rfl
    obtain ⟨hc, -⟩ := accept_returns_classification hstep
    rcases hc with h | ⟨cid, rest, hbuf, hret, hdel⟩ | ⟨hbuf, hcl, hret⟩
    · exact absurd h (by decide)
    · simp [initSys] at hbuf
      obtain ⟨hcid, hrest⟩ := hbuf
      subst hcid
      refine ⟨_, hstep, ?_, ?_⟩
      · rw [hret]
        simp [initSys]
      · rw [hdel]
        simp [initSys]
    · exact absurd hcl (by decide)
  · have hstep : Step { initSys [] with chanClosed := true, termErr := some ⟨4, "listener closed"⟩ }
        .consumerT
        { initSys [] with chanClosed := true, termErr := some ⟨4, "listener closed"⟩, acceptReturns := [(none, some ⟨4, "listener closed"⟩)] } :=
      Step.consClosed rfl rfl
    obtain ⟨hc, -⟩ := accept_returns_classification hstep
    rcases hc with h | ⟨cid, rest, hbuf, hret, hdel⟩ | ⟨hbuf, hcl, hret⟩
    · exact absurd h (by decide)
    · simp [initSys] at hbuf
    · exact ⟨_, hstep, by rw [hret]; simp [initSys]⟩

/-- C10: `setKeepAliveWorkarround` panics on the unchecked
`conn.(*net.TCPConn)` assertion for any connection that satisfies the
`tcpConnection` interface without concretely being a `*net.TCPConn`; it
never invokes the declared interface methods `SetKeepAlive` /
`SetKeepAlivePeriod` on any input; the accept loop's step for such a
connection takes the loop down (it crashes instead of spawning a handler);
and a crashed loop never takes another step — its script is frozen. -/
theorem setKeepAlive_panics_on_non_tcpconn :
    setKeepAliveWorkarround .kaCapableNonTCP = none ∧
    (∀ k r, setKeepAliveWorkarround k = some r →
      r.2.setKeepAliveCalled = false ∧ r.2.setKeepAlivePeriodCalled = false) ∧
    (∀ s c rest, s.loopPC = .accepting → s.script = .aok c :: rest →
      c.kind = .kaCapableNonTCP →
      Step s .loopT { s with script := rest, loopPC := .crashedLoop }) ∧
    (∀ s a s2, Step s a s2 → s.loopPC = .crashedLoop →
      s2.loopPC = .crashedLoop ∧ s2.script = s.script) := by
  refine ⟨rfl, ?_, ?_, ?_⟩
  · intro k r h
    match k with
    | .kaCapableNonTCP => cases h
    | .plainConn => cases h
    | .tcp scErr ctlErr ioErr =>
      cases scErr <;> cases ctlErr <;>
        simp [setKeepAliveWorkarround] at h <;> simp [← h]
  · intro s c rest h1 h2 h3
    exact Step.acceptOkCrash h1 h2 h3
  · intro s a s2 hstep hcr
    cases hstep <;> simp_all

/-- Witness for C10: a keepalive-capable connection that is not a
`*net.TCPConn` drives `setKeepAliveWorkarround` into the panic result, and
the loop step consuming it crashes the accept loop. -/
theorem setKeepAlive_panics_on_non_tcpconn_witness :
    setKeepAliveWorkarround .kaCapableNonTCP = none ∧
    ∃ s2, Step (initSys [.aok ⟨9, .kaCapableNonTCP, .normal none⟩]) .loopT s2 ∧
      s2.loopPC = .crashedLoop := by
  exact ⟨setKeepAlive_panics_on_non_tcpconn.1,
    ⟨_, setKeepAlive_panics_on_non_tcpconn.2.2.1 _
      ⟨9, .kaCapableNonTCP, .normal none⟩ [] rfl rfl rfl, rfl⟩⟩

/-- Counterexample for C8: on a genuine `*net.TCPConn` whose `WSAIoctl`
call fails while `SyscallConn` and `Control` succeed, the keepalive policy
fails to be applied, yet `setKeepAliveWorkarround` returns a nil error, so
the accept loop logs no warning at all — the failure is only printed to
standard output by the callback — and the connection still proceeds to a
handler goroutine.  This refutes the part of the claim stating that any
failure to apply the policy is logged at warning level. -/
theorem keepalive_ioctl_failure_not_warned :
    setKeepAliveWorkarround (.tcp none none (some ⟨5, "wsaioctl failure"⟩)) =
      some (none, ⟨some ⟨1, 120000, 15000⟩, true, false, false⟩) ∧
    kaEvents (.tcp none none (some ⟨5, "wsaioctl failure"⟩)) = [.kaPrinted] ∧
    (∀ e, LoopEvent.kaWarnLogged e ∉
      kaEvents (.tcp none none (some ⟨5, "wsaioctl failure"⟩))) ∧
    (∃ s2, Step (initSys
        [.aok ⟨4, .tcp none none (some ⟨5, "wsaioctl failure"⟩), .normal none⟩])
        .loopT s2 ∧
      s2.handlers =
        [⟨⟨4, .tcp none none (some ⟨5, "wsaioctl failure"⟩), .normal none⟩, .start⟩] ∧
      s2.loopEvents = [.kaPrinted] ∧
      s2.loopPC = .accepting) := by
  have hka : kaEvents (.tcp none none (some ⟨5, "wsaioctl failure"⟩)) = [.kaPrinted] := by
    simp [kaEvents, setKeepAliveWorkarround, implsTcpConnection]
  refine ⟨rfl, hka, ?_, ?_⟩
  · intro e he
    rw [hka] at he
    simp at he
  · refine ⟨_, Step.acceptOkSpawn rfl rfl (by simp), ?_, ?_, rfl⟩
    · simp [initSys]
    · simp [initSys, hka]

/-- C8 as amended: for every accepted `*net.TCPConn`, the parameters the
configurator passes to the keepalive ioctl are always enabled = 1,
idle-time = 120000 ms, probe-interval = 15000 ms; a failure surfaced as a
returned error (from `SyscallConn` or `Control`) is exactly what gets
logged at warning level; a `WSAIoctl` failure inside the callback is not
logged through the logger (only printed to standard output); and in every
case the failure is non-fatal — the accept loop still increments the wait
group and spawns the handler goroutine for the connection. -/
theorem keepalive_policy_amended (scErr ctlErr ioErr : Option GoErr) :
    (∃ err eff, setKeepAliveWorkarround (.tcp scErr ctlErr ioErr) = some (err, eff) ∧
      (err = none ↔ (scErr = none ∧ ctlErr = none)) ∧
      (eff.ioctlParams = none ∨ eff.ioctlParams = some ⟨1, 120000, 15000⟩) ∧
      (scErr = none → ctlErr = none → eff.ioctlParams = some ⟨1, 120000, 15000⟩) ∧
      ((∃ e, LoopEvent.kaWarnLogged e ∈ kaEvents (.tcp scErr ctlErr ioErr)) ↔
        err ≠ none)) ∧
    (∀ s c rest, s.loopPC = .accepting → s.script = .aok c :: rest →
      c.kind = .tcp scErr ctlErr ioErr →
      Step s .loopT
        { s with script := rest, wg := s.wg + 1,
                 handlers := s.handlers ++ [⟨c, .start⟩],
                 accepted := s.accepted ++ [c.cid],
                 loopEvents := kaEvents c.kind ++ s.loopEvents }) := by
  constructor
  · match scErr with
    | some e =>
      exact ⟨some e, ⟨none, false, false, false⟩, rfl, by simp, Or.inl rfl,
        by simp, by simp [kaEvents, setKeepAliveWorkarround, implsTcpConnection]⟩
    | none =>
      match ctlErr with
      | some e =>
        exact ⟨some e, ⟨none, false, false, false⟩, rfl, by simp, Or.inl rfl,
          by simp, by simp [kaEvents, setKeepAliveWorkarround, implsTcpConnection]⟩
      | none =>
        refine ⟨none, ⟨some ⟨1, 120000, 15000⟩, ioErr.isSome, false, false⟩, rfl,
          by simp, Or.inr rfl, fun _ _ => rfl, ?_⟩
        cases ioErr <;>
          simp [kaEvents, setKeepAliveWorkarround, implsTcpConnection]
  · intro s c rest h1 h2 h3
    refine Step.acceptOkSpawn h1 h2 ?_
    rw [h3]
    simp

/-- Witness for C8 (amended): a `*net.TCPConn` with no errors gets the
exact policy parameters and no warning; one whose `SyscallConn` fails gets
a warning logged and still proceeds to a spawned handler goroutine. -/
theorem keepalive_policy_amended_witness :
    (∃ err eff, setKeepAliveWorkarround (.tcp none none none) = some (err, eff) ∧
      err = none ∧ eff.ioctlParams = some ⟨1, 120000, 15000⟩) ∧
    (∃ s2, Step (initSys
        [.aok ⟨6, .tcp (some ⟨8, "sysconn failed"⟩) none none, .normal none⟩])
        .loopT s2 ∧
      s2.loopEvents = [.kaWarnLogged ⟨8, "sysconn failed"⟩] ∧
      s2.wg = 1) := by
  constructor
  · obtain ⟨err, eff, h1, h2, h3, h4, h5⟩ := (keepalive_policy_amended none none none).1
    exact ⟨err, eff, h1, h2.mpr ⟨rfl, rfl⟩, h4 rfl rfl⟩
  · refine ⟨_, (keepalive_policy_amended (some ⟨8, "sysconn failed"⟩) none none).2
      _ ⟨6, .tcp (some ⟨8, "sysconn failed"⟩) none none, .normal none⟩ [] rfl rfl rfl, ?_, rfl⟩
    simp [initSys, kaEvents, setKeepAliveWorkarround, implsTcpConnection]

/-- Identifiers of the connections a script will deliver through
`l.Listener.Accept()`. -/
def scriptIds (script : List AcceptOutcome) : List Nat :=
  script.filterMap (fun a => match a with
    | .aok c => some c.cid
    | .aerr _ _ _ => none)

/-- Whether a handler goroutine still owes its connection a resolution:
a goroutine whose chain returns normally will still close the connection,
and a piping goroutine that has not yet performed its send will still
send it. -/
def pendingT (t : HThread) : Bool :=
  match t.conn.outcome with
  | .normal _ => true
  | .pipe => t.pc == .start

/-- Number of live handler goroutines still owing connection `cid` a
resolution. -/
def pendingCount (cid : Nat) (hs : List HThread) : Nat :=
  (hs.filter (fun t => t.conn.cid == cid && pendingT t)).length

theorem pendingCount_nil (cid : Nat) : pendingCount cid [] = 0 := rfl

theorem pendingCount_append (cid : Nat) (a b : List HThread) :
    pendingCount cid (a ++ b) = pendingCount cid a + pendingCount cid b := by
  simp [pendingCount, List.filter_append]

theorem pendingCount_cons (cid : Nat) (t : HThread) (hs : List HThread) :
    pendingCount cid (t :: hs) =
      (if t.conn.cid == cid && pendingT t then 1 else 0) + pendingCount cid hs := by
  by_cases h : (t.conn.cid == cid && pendingT t) = true <;>
    simp [pendingCount, List.filter_cons, h]
  all_goals omega

theorem pendingT_start (c : ConnInfo) : pendingT ⟨c, .start⟩ = true := by
  cases h : c.outcome <;> simp [pendingT, h]

theorem pendingT_of_normal {c : ConnInfo} {e : Option GoErr}
    (h : c.outcome = .normal e) (pc : HPC) : pendingT ⟨c, pc⟩ = true := by
  simp [pendingT, h]

theorem pendingT_of_pipe {c : ConnInfo} (h : c.outcome = .pipe) (pc : HPC) :
    pendingT ⟨c, pc⟩ = (pc == .start) := by
  simp [pendingT, h]

/-- A handler-chain outcome conforming to the hijack protocol: the
hijacked marker is returned only by propagating the pipe operation's
result, never fabricated by a non-piping chain. -/
def goodOutcome : HandlerOutcome → Prop
  | .normal (some e) => e ≠ errHijacked
  | _ => True

/-- A scripted accept outcome that keeps the pump alive and conforms to
the hijack protocol (no keepalive-capable non-TCP connection, which would
crash the loop — claim C10 — and no fabricated hijack error). -/
def goodAccept : AcceptOutcome → Prop
  | .aok c => goodOutcome c.outcome ∧ c.kind ≠ .kaCapableNonTCP
  | .aerr _ _ _ => True

/-- The total resolution count of connection `cid`: handler goroutines
still owing it a close or a send, plus its occurrences in the channel,
among handler-closed connections, among delivered connections and among
drain-closed connections. -/
def fateSum (s : Sys) (cid : Nat) : Nat :=
  pendingCount cid s.handlers + s.chanBuf.count cid +
    s.handlerClosed.count cid + s.delivered.count cid + s.drainClosed.count cid

/-- Inductive invariant for C5: scripts and live chains conform to the
protocol, connection identifiers are never reused, and every dispatched
connection's multiplicity among `accepted` equals its total resolution
count — each accepted connection is owed exactly one fate. -/
def FateInv (s : Sys) : Prop :=
  (∀ a ∈ s.script, goodAccept a) ∧
  (∀ t ∈ s.handlers, goodOutcome t.conn.outcome) ∧
  (s.accepted ++ scriptIds s.script).Nodup ∧
  (∀ cid, s.accepted.count cid = fateSum s cid)

theorem scriptIds_cons_aerr (e : GoErr) (n t : Bool) (rest : List AcceptOutcome) :
    scriptIds (.aerr e n t :: rest) = scriptIds rest := by
  simp [scriptIds]

theorem scriptIds_cons_aok (c : ConnInfo) (rest : List AcceptOutcome) :
    scriptIds (.aok c :: rest) = c.cid :: scriptIds rest := by
  simp [scriptIds]

theorem threads_good_mid {pre post : List HThread} {c : ConnInfo} {p1 p2 : HPC}
    (h : ∀ t ∈ pre ++ (⟨c, p1⟩ : HThread) :: post, goodOutcome t.conn.outcome) :
    ∀ t ∈ pre ++ (⟨c, p2⟩ : HThread) :: post, goodOutcome t.conn.outcome := by
  intro t ht2
  rcases List.mem_append.mp ht2 with h1 | h1
  · exact h t (List.mem_append.mpr (Or.inl h1))
  · rcases List.mem_cons.mp h1 with h2 | h2
    · subst h2
      exact h ⟨c, p1⟩ (List.mem_append.mpr (Or.inr (List.mem_cons_self _ _)))
    · exact h t (List.mem_append.mpr (Or.inr (List.mem_cons_of_mem _ h2)))

theorem threads_good_remove {pre post : List HThread} {t0 : HThread}
    (h : ∀ t ∈ pre ++ t0 :: post, goodOutcome t.conn.outcome) :
    ∀ t ∈ pre ++ post, goodOutcome t.conn.outcome := by
  intro t ht2
  rcases List.mem_append.mp ht2 with h1 | h1
  · exact h t (List.mem_append.mpr (Or.inl h1))
  · exact h t (List.mem_append.mpr (Or.inr (List.mem_cons_of_mem _ h1)))

theorem fate_step {s : Sys} {a : Act} {s2 : Sys}
    (h : Step s a s2) (hi : FateInv s) : FateInv s2 := by
  obtain ⟨hg, ht, hn, hc⟩ := hi
  cases h with
  | acceptTemp hpc hscript =>
    refine ⟨?_, ht, ?_, hc⟩
    · intro a2 ha2
      exact hg a2 (by rw [hscript]; exact List.mem_cons_of_mem _ ha2)
    · rw [hscript, scriptIds_cons_aerr] at hn
      exact hn
  | acceptFatal hpc hscript hclass =>
    refine ⟨?_, ht, ?_, hc⟩
    · intro a2 ha2
      exact hg a2 (by rw [hscript]; exact List.mem_cons_of_mem _ ha2)
    · rw [hscript, scriptIds_cons_aerr] at hn
      exact hn
  | acceptOkSpawn hpc hscript hkind =>
    rename_i c rest
    refine ⟨?_, ?_, ?_, ?_⟩
    · intro a2 ha2
      exact hg a2 (by rw [hscript]; exact List.mem_cons_of_mem _ ha2)
    · intro t ht2
      rcases List.mem_append.mp ht2 with h1 | h1
      · exact ht t h1
      · rcases List.mem_cons.mp h1 with h2 | h2
        · subst h2
          exact (hg (.aok c) (by rw [hscript]; exact List.mem_cons_self _ _)).1
        · cases h2
    · rw [hscript, scriptIds_cons_aok] at hn
      simpa [List.append_assoc] using hn
    · intro cid
      have h4 := hc cid
      by_cases hcid : c.cid = cid <;>
        simp [fateSum, pendingCount_append, pendingCount_cons, pendingCount_nil,
          pendingT_start, List.count_append, List.count_cons, List.count_nil,
          hcid] at h4 ⊢ <;>
        omega
  | acceptOkCrash hpc hscript hkind =>
    rename_i c rest
    exact absurd hkind
      (hg (.aok c) (by rw [hscript]; exact List.mem_cons_self _ _)).2
  | spawnWatcherStep hpc => exact ⟨hg, ht, hn, hc⟩
  | drainRecv hpc hbuf =>
    rename_i cid0 rest0
    refine ⟨hg, ht, hn, ?_⟩
    intro cid
    have h4 := hc cid
    by_cases hcid : cid0 = cid <;>
      simp [fateSum, hbuf, List.count_append, List.count_cons, List.count_nil,
        hcid] at h4 ⊢ <;>
      omega
  | drainDone hpc hbuf hcl => exact ⟨hg, ht, hn, hc⟩
  | watcherWait hw hwg => exact ⟨hg, ht, hn, hc⟩
  | watcherClose hw => exact ⟨hg, ht, hn, hc⟩
  | chainNormal hhs hout =>
    rename_i pre post c e
    refine ⟨hg, ?_, hn, ?_⟩
    · rw [hhs] at ht
      exact threads_good_mid ht
    · intro cid
      have h4 := hc cid
      simp [fateSum, hhs, pendingCount_append, pendingCount_cons,
        pendingT_of_normal hout] at h4 ⊢
      omega
  | pipeSendOk hhs hout hcl =>
    rename_i pre post c
    refine ⟨hg, ?_, hn, ?_⟩
    · rw [hhs] at ht
      exact threads_good_mid ht
    · intro cid
      have h4 := hc cid
      by_cases hcid : c.cid = cid <;>
        simp [fateSum, hhs, pendingCount_append, pendingCount_cons,
          pendingT_of_pipe hout, List.count_append, List.count_cons,
          List.count_nil, hcid] at h4 ⊢ <;>
        omega
  | pipeSendClosed hhs hout hcl => exact ⟨hg, ht, hn, hc⟩
  | hDone hhs =>
    rename_i pre post c
    refine ⟨hg, ?_, hn, ?_⟩
    · rw [hhs] at ht
      exact threads_good_mid ht
    · intro cid
      have h4 := hc cid
      cases houtc : c.outcome with
      | normal e =>
        simp [fateSum, hhs, pendingCount_append, pendingCount_cons,
          pendingT_of_normal houtc] at h4 ⊢
        omega
      | pipe =>
        simp [fateSum, hhs, pendingCount_append, pendingCount_cons,
          pendingT_of_pipe houtc] at h4 ⊢
        omega
  | hCloseYes hhs hcr =>
    rename_i pre post c
    cases houtc : c.outcome with
    | pipe =>
      rw [houtc] at hcr
      simp [chainResult] at hcr
    | normal e =>
      refine ⟨hg, ?_, hn, ?_⟩
      · rw [hhs] at ht
        exact threads_good_remove ht
      · intro cid
        have h4 := hc cid
        by_cases hcid : c.cid = cid <;>
          simp [fateSum, hhs, pendingCount_append, pendingCount_cons,
            pendingT_of_normal houtc, List.count_append, List.count_cons,
            List.count_nil, hcid] at h4 ⊢ <;>
          omega
  | hCloseNo hhs hcr =>
    rename_i pre post c
    cases houtc : c.outcome with
    | normal e =>
      have hgood : goodOutcome c.outcome := ht ⟨c, .didDone⟩
        (by rw [hhs]; exact List.mem_append.mpr (Or.inr (List.mem_cons_self _ _)))
      rw [houtc] at hcr
      simp [chainResult] at hcr
      rw [houtc, hcr] at hgood
      simp [goodOutcome] at hgood
    | pipe =>
      refine ⟨hg, ?_, hn, ?_⟩
      · rw [hhs] at ht
        exact threads_good_remove ht
      · intro cid
        have h4 := hc cid
        simp [fateSum, hhs, pendingCount_append, pendingCount_cons,
          pendingT_of_pipe houtc] at h4 ⊢
        omega
  | consRecv hbuf =>
    rename_i cid0 rest0
    refine ⟨hg, ht, hn, ?_⟩
    intro cid
    have h4 := hc cid
    by_cases hcid : cid0 = cid <;>
      simp [fateSum, hbuf, List.count_append, List.count_cons, List.count_nil,
        hcid] at h4 ⊢ <;>
      omega
  | consClosed hbuf hcl => exact ⟨hg, ht, hn, hc⟩

def c5c : ConnInfo := ⟨1, .plainConn, .pipe⟩

def c5e : GoErr := ⟨2, "use of closed network connection"⟩

def c5script : List AcceptOutcome := [.aok c5c, .aerr c5e false false]

def c5s1 : Sys :=
  { initSys c5script with
      script := [.aerr c5e false false]
      wg := 1
      handlers := [⟨c5c, .start⟩]
      accepted := [1] }

def c5s2 : Sys := { c5s1 with handlers := [⟨c5c, .ranChain⟩], chanBuf := [1] }

def c5s3 : Sys := { c5s2 with handlers := [⟨c5c, .didDone⟩], wg := 0 }

def c5s4 : Sys := { c5s3 with handlers := [] }

def c5s5 : Sys :=
  { c5s4 with
      script := []
      termErr := some c5e
      loopPC := .spawnWatcher
      loopEvents := [.fatalRecorded c5e] }

def c5s6 : Sys := { c5s5 with loopPC := .draining, watcher := .waiting }

def c5s7 : Sys := { c5s6 with watcher := .waited }

def c5s8 : Sys := { c5s7 with chanClosed := true, watcher := .watcherDone }

def c5s9 : Sys := { c5s8 with chanBuf := [], drainClosed := [1] }

def c5sF : Sys := { c5s9 with loopPC := .doneLoop }

/-- A run in which connection 1 is accepted, hijacked and piped into the
channel; its handler goroutine exits without closing it; the raw listener
then fails fatally; the watcher closes the channel; and the loop's
shutdown drain receives connection 1 and closes it before any consumer
`Accept` ran. -/
theorem c5_chain : Reaches (initSys c5script) c5sF := by
  have e1 : StepAny (initSys c5script) c5s1 :=
    ⟨.loopT, Step.acceptOkSpawn rfl rfl (by decide)⟩
  have e2 : StepAny c5s1 c5s2 := ⟨.handlerT, @Step.pipeSendOk c5s1 [] [] c5c rfl rfl rfl⟩
  have e3 : StepAny c5s2 c5s3 := ⟨.handlerT, @Step.hDone c5s2 [] [] c5c rfl⟩
  have e4 : StepAny c5s3 c5s4 := ⟨.handlerT, @Step.hCloseNo c5s3 [] [] c5c rfl rfl⟩
  have e5 : StepAny c5s4 c5s5 := ⟨.loopT, Step.acceptFatal rfl rfl (by rfl)⟩
  have e6 : StepAny c5s5 c5s6 := ⟨.loopT, Step.spawnWatcherStep rfl⟩
  have e7 : StepAny c5s6 c5s7 := ⟨.watcherT, Step.watcherWait rfl rfl⟩
  have e8 : StepAny c5s7 c5s8 := ⟨.watcherT, Step.watcherClose rfl⟩
  have e9 : StepAny c5s8 c5s9 := ⟨.loopT, Step.drainRecv rfl rfl⟩
  have e10 : StepAny c5s9 c5sF := ⟨.loopT, Step.drainDone rfl rfl rfl⟩
  exact .tail (.tail (.tail (.tail (.tail (.tail (.tail (.tail (.tail
    (.tail .refl e1) e2) e3) e4) e5) e6) e7) e8) e9) e10

theorem c5_final_frozen {s2 : Sys} (h : Reaches c5sF s2) :
    s2.loopPC = .doneLoop ∧ s2.handlers = [] ∧ s2.chanBuf = [] ∧
    s2.handlerClosed = [] ∧ s2.delivered = [] := by
  induction h with
  | refl => exact ⟨rfl, rfl, rfl, rfl, rfl⟩
  | tail hab hbc ih =>
    obtain ⟨a2, hstep⟩ := hbc
    obtain ⟨i1, i2, i3, i4, i5⟩ := ih
    cases hstep <;> simp_all

/-- Counterexample for C5: in the run of `c5_chain`, connection 1 was
accepted from the raw listener, yet it is neither closed by its handler
goroutine nor delivered to the wrapper listener's consumer — its handler
goroutine exited without closing it (hijack), and the shutdown drain in
the accept loop closed it; in every continuation of the run it stays
unclosed-by-handler and undelivered.  So "closed by handler goroutine or
delivered to the consumer" does not cover the shutdown-drain exit, and
the claim fails as stated. -/
theorem piped_connection_drained_never_delivered :
    Reaches (initSys c5script) c5sF ∧
    c5sF.accepted = [1] ∧
    c5sF.handlerClosed = [] ∧
    c5sF.delivered = [] ∧
    c5sF.drainClosed = [1] ∧
    (∀ s2, Reaches c5sF s2 → s2.handlerClosed = [] ∧ s2.delivered = []) :=
  ⟨c5_chain, rfl, rfl, rfl, rfl, fun _ h =>
    ⟨(c5_final_frozen h).2.2.2.1, (c5_final_frozen h).2.2.2.2⟩⟩

/-- C5 as amended: provided every scripted connection conforms to the
hijack protocol (the hijacked marker only arises from piping), carries a
fresh identifier, and none is a keepalive-capable non-TCP connection
(which would crash the loop, claim C10), then in every reachable state a
connection has at most one of the three fates {closed by its handler
goroutine, delivered to the consumer, closed by the shutdown drain}, and
in every quiescent reachable state (no live handler goroutine, empty
channel) every accepted connection has exactly one of them.  Delivery to
the consumer and closure by the drain are the two possible continuations
of the single channel send a hijacked connection gets. -/
theorem connection_exactly_one_fate (script : List AcceptOutcome)
    (hgood : ∀ a ∈ script, goodAccept a)
    (hnodup : (scriptIds script).Nodup)
    (s : Sys) (h : Reaches (initSys script) s) :
    (∀ cid, s.handlerClosed.count cid + s.delivered.count cid +
      s.drainClosed.count cid ≤ 1) ∧
    (s.handlers = [] → s.chanBuf = [] → ∀ cid ∈ s.accepted,
      s.handlerClosed.count cid + s.delivered.count cid +
        s.drainClosed.count cid = 1) := by
  have hinv : FateInv s := by
    induction h with
    | refl =>
      refine ⟨hgood, ?_, ?_, ?_⟩
      · intro t ht2
        simp [initSys] at ht2
      · simpa [initSys] using hnodup
      · intro cid
        simp [initSys, fateSum, pendingCount_nil, List.count_nil]
    | tail hab hbc ih =>
      obtain ⟨a2, hstep⟩ := hbc
      exact fate_step hstep ih
  obtain ⟨hg, ht, hn, hc⟩ := hinv
  have hacc : s.accepted.Nodup := hn.of_append_left
  have hle1 : ∀ cid, s.accepted.count cid ≤ 1 :=
    List.nodup_iff_count_le_one.mp hacc
  refine ⟨?_, ?_⟩
  · intro cid
    have h4 := hc cid
    have h5 := hle1 cid
    simp only [fateSum] at h4
    omega
  · intro hh hb cid hmem
    have h4 := hc cid
    have h5 := hle1 cid
    have hpos : 0 < s.accepted.count cid := List.count_pos_iff.mpr hmem
    simp only [fateSum] at h4
    rw [hh, hb] at h4
    simp [pendingCount_nil, List.count_nil] at h4
    omega

/-- Witness for C5 (amended): in the concrete run of `c5_chain` — one
hijacked connection, then a fatal accept error and shutdown drain — the
final state is quiescent, and connection 1 has exactly one fate (closed
by the drain), the bound holding for all identifiers. -/
theorem connection_exactly_one_fate_witness :
    (∀ cid, c5sF.handlerClosed.count cid + c5sF.delivered.count cid +
      c5sF.drainClosed.count cid ≤ 1) ∧
    c5sF.handlerClosed.count 1 + c5sF.delivered.count 1 +
      c5sF.drainClosed.count 1 = 1 := by
  have hgood : ∀ a ∈ c5script, goodAccept a := by
    intro a ha
    simp [c5script] at ha
    rcases ha with h | h <;> subst h <;> simp [goodAccept, goodOutcome, c5c]
  have hnodup : (scriptIds c5script).Nodup := by decide
  obtain ⟨h1, h2⟩ := connection_exactly_one_fate c5script hgood hnodup c5sF c5_chain
  exact ⟨h1, h2 rfl rfl 1 (by decide)⟩
